import Mathlib

/-!
A shallow embedding of the competitive-ranking core of `src/main.py` (a
Discord ELO ranking bot backed by Firestore): the rating model, the match
ledger (`process_match_elo`, `revert_match`), registration, the admin
overrides and the daily decay pass, together with theorems settling the
specification's claims about them.

Conventions of the embedding:
* Firestore documents become Lean structures; the `players` and
  `match_history` collections become association lists keyed by the
  document id.  The auto-generated match ids become consecutive naturals
  drawn from `State.nextId`.
* `firestore.Increment` fields are modelled as transformations of the
  current document value, literal fields as overwrites with
  snapshot-derived values, and `ArrayUnion` as append-if-absent.  The two
  updates of a write batch are applied in order (the server's semantics
  for a `WriteBatch`), which coincides with the simultaneous update
  whenever the two document keys differ.
* `firestore.SERVER_TIMESTAMP` and the decay cutoff `now - 30 days` are
  integer parameters of the operations.
* Python's float arithmetic in `calculate_elo_change` is idealised over
  the reals; Python's `round` (banker's rounding) is `pyRound`.
-/

namespace EloBot

/-- The regions offered by the slash-command choices: "NA", "EU", "AS". -/
inductive Region
  | NA
  | EU
  | AS
deriving DecidableEq

/-- One document of the `players` collection.  The first 22 fields are
exactly the ones `register` initialises (src/main.py lines 223-230).  The
last six fields model the case-mangled regional counters that
`process_match_elo` increments: line 145/146 use `f'wins_{region}'` with
the *uppercase* region string ("NA"/"EU"/"AS"), so the incremented fields
`wins_NA`, ... are distinct from the lowercase `wins_na`, ... created by
`register`.  Firestore creates them on first increment with base value 0;
we carry them from the start with value 0, which is value-equivalent. -/
structure PlayerData where
  discord_id : String
  discord_name : String
  roblox_username : String
  clan : String
  country : String
  elo_na : ℤ
  elo_eu : ℤ
  elo_as : ℤ
  wins : ℤ
  wins_na : ℤ
  wins_eu : ℤ
  wins_as : ℤ
  losses : ℤ
  losses_na : ℤ
  losses_eu : ℤ
  losses_as : ℤ
  matches_played : ℤ
  tournaments_participated : List String
  last_played_date : ℤ
  current_win_streak : ℤ
  current_loss_streak : ℤ
  best_win_streak : ℤ
  wins_NA : ℤ
  wins_EU : ℤ
  wins_AS : ℤ
  losses_NA : ℤ
  losses_EU : ℤ
  losses_AS : ℤ
deriving DecidableEq

/-- One document of the `match_history` collection, as written by
`process_match_elo` (src/main.py line 164). -/
structure MatchRecord where
  winner_id : String
  loser_id : String
  elo_change : ℤ
  region : Region
  timestamp : ℤ
  tournament_id : Option String
deriving DecidableEq

/-- The shared mutable store: the two collections the rating core touches,
plus the supply of fresh auto-generated match ids. -/
structure State where
  players : List (String × PlayerData)
  match_history : List (ℕ × MatchRecord)
  nextId : ℕ
deriving DecidableEq

def STARTING_ELO : ℤ := 1200
def K_FACTOR : ℤ := 32
def K_FACTOR_PROVISIONAL : ℤ := 64
def PROVISIONAL_MATCHES : ℤ := 10
def DECAY_AMOUNT : ℤ := 25

/-- `db.collection('players').document(uid).get()`. -/
def lookupP (s : State) (uid : String) : Option PlayerData :=
  (s.players.find? fun e => e.1 == uid).map Prod.snd

/-- `db.collection('match_history').document(mid).get()`. -/
def lookupM (s : State) (mid : ℕ) : Option MatchRecord :=
  (s.match_history.find? fun e => e.1 == mid).map Prod.snd

/-- Apply a document update to the player with the given key. -/
def updP (l : List (String × PlayerData)) (k : String)
    (f : PlayerData → PlayerData) : List (String × PlayerData) :=
  l.map fun e => if e.1 == k then (e.1, f e.2) else e

/-- A batched `update` of one player document. -/
def batchUpdateP (s : State) (k : String) (f : PlayerData → PlayerData) : State :=
  { s with players := updP s.players k f }

/-- Python's `round`: round half to even (only exercised away from the
half case in this development, where it agrees with rounding to
nearest). -/
noncomputable def pyRound (x : ℝ) : ℤ :=
  if x - ⌊x⌋ < 1/2 then ⌊x⌋
  else if 1/2 < x - ⌊x⌋ then ⌊x⌋ + 1
  else if ⌊x⌋ % 2 = 0 then ⌊x⌋ else ⌊x⌋ + 1

/-- `get_overall_elo` (line 113-114): the rounded mean of the three
regional ratings. -/
noncomputable def get_overall_elo (p : PlayerData) : ℤ :=
  pyRound ((↑(p.elo_na + p.elo_eu + p.elo_as) : ℝ) / 3)

/-- The logistic expectation `1 / (1 + 10 ** ((loser - winner) / 400))`
inside `calculate_elo_change` (line 110). -/
noncomputable def expected_win (winner_elo loser_elo : ℤ) : ℝ :=
  1 / (1 + (10 : ℝ) ^ ((↑(loser_elo - winner_elo) : ℝ) / 400))

/-- The K-factor selection of `calculate_elo_change` (line 109). -/
def k_factor_used (winner_data loser_data : PlayerData) : ℤ :=
  if winner_data.matches_played < PROVISIONAL_MATCHES ∨
     loser_data.matches_played < PROVISIONAL_MATCHES
  then K_FACTOR_PROVISIONAL else K_FACTOR

/-- `calculate_elo_change` (lines 107-111):
`round(k_factor * (1 - expected_win))`. -/
noncomputable def calculate_elo_change (winner_data loser_data : PlayerData) : ℤ :=
  pyRound (↑(k_factor_used winner_data loser_data) *
    (1 - expected_win (get_overall_elo winner_data) (get_overall_elo loser_data)))

/-- Read the regional rating field `elo_{region.lower()}`. -/
def eloGet (p : PlayerData) : Region → ℤ
  | .NA => p.elo_na
  | .EU => p.elo_eu
  | .AS => p.elo_as

/-- Update the regional rating field `elo_{region.lower()}`. -/
def eloUpd (r : Region) (f : ℤ → ℤ) (p : PlayerData) : PlayerData :=
  match r with
  | .NA => { p with elo_na := f p.elo_na }
  | .EU => { p with elo_eu := f p.elo_eu }
  | .AS => { p with elo_as := f p.elo_as }

/-- Update the field `f'wins_{region}'` (uppercase region string). -/
def winsRegUpd (r : Region) (f : ℤ → ℤ) (p : PlayerData) : PlayerData :=
  match r with
  | .NA => { p with wins_NA := f p.wins_NA }
  | .EU => { p with wins_EU := f p.wins_EU }
  | .AS => { p with wins_AS := f p.wins_AS }

/-- Update the field `f'losses_{region}'` (uppercase region string). -/
def lossesRegUpd (r : Region) (f : ℤ → ℤ) (p : PlayerData) : PlayerData :=
  match r with
  | .NA => { p with losses_NA := f p.losses_NA }
  | .EU => { p with losses_EU := f p.losses_EU }
  | .AS => { p with losses_AS := f p.losses_AS }

/-- `firestore.ArrayUnion([x])` on a list field. -/
def arrayUnion (l : List String) (x : String) : List String :=
  if x ∈ l then l else l ++ [x]

/-- The `update_winner` document update (line 145, plus the conditional
`ArrayUnion` of line 148-149).  `elo_change`, `w_streak`, `w_best` and
`addT` are computed from the pre-read snapshot; increments act on the
current document value. -/
def update_winner_doc (region : Region) (elo_change w_streak w_best time : ℤ)
    (addT : Option String) (p : PlayerData) : PlayerData :=
  let p1 := eloUpd region (fun e => e + elo_change) p
  let p2 := winsRegUpd region (fun w => w + 1) p1
  let p3 := { p2 with
    wins := p2.wins + 1
    matches_played := p2.matches_played + 1
    last_played_date := time
    current_win_streak := w_streak
    best_win_streak := w_best
    current_loss_streak := 0 }
  match addT with
  | some tid =>
      { p3 with tournaments_participated := arrayUnion p3.tournaments_participated tid }
  | none => p3

/-- The `update_loser` document update (line 146, plus the conditional
`ArrayUnion` of line 150-151). -/
def update_loser_doc (region : Region) (elo_change time : ℤ)
    (addT : Option String) (p : PlayerData) : PlayerData :=
  let p1 := eloUpd region (fun e => e + (-elo_change)) p
  let p2 := lossesRegUpd region (fun w => w + 1) p1
  let p3 := { p2 with
    losses := p2.losses + 1
    matches_played := p2.matches_played + 1
    last_played_date := time
    current_loss_streak := p2.current_loss_streak + 1
    current_win_streak := 0 }
  match addT with
  | some tid =>
      { p3 with tournaments_participated := arrayUnion p3.tournaments_participated tid }
  | none => p3

/-- The condition of lines 148-151: add the tournament id only when one
was given and it is absent from the snapshot's participation list. -/
def tourneyToAdd (tourney_id : Option String) (snapshot : PlayerData) : Option String :=
  match tourney_id with
  | some tid => if tid ∈ snapshot.tournaments_participated then none else some tid
  | none => none

/-- The state after the `batch.commit()` of line 155: both player updates
applied in one atomic unit, the match record not yet written. -/
noncomputable def applyBatchState (winner_id loser_id : String) (region : Region)
    (tourney_id : Option String) (time : ℤ) (s : State)
    (w l : PlayerData) : State :=
  let elo_change := calculate_elo_change w l
  let s1 := batchUpdateP s winner_id
    (update_winner_doc region elo_change (w.current_win_streak + 1)
      (max (w.current_win_streak + 1) w.best_win_streak) time (tourneyToAdd tourney_id w))
  batchUpdateP s1 loser_id
    (update_loser_doc region elo_change time (tourneyToAdd tourney_id l))

/-- The match record written at lines 163-164. -/
noncomputable def newMatchRecord (winner_id loser_id : String) (region : Region)
    (tourney_id : Option String) (time : ℤ) (w l : PlayerData) : MatchRecord :=
  { winner_id := winner_id
    loser_id := loser_id
    elo_change := calculate_elo_change w l
    region := region
    timestamp := time
    tournament_id := tourney_id }

/-- The state after the separate `match_history_ref.set(...)` write of
line 164, which follows the batch commit. -/
noncomputable def applyFinalState (winner_id loser_id : String) (region : Region)
    (tourney_id : Option String) (time : ℤ) (s : State)
    (w l : PlayerData) : State :=
  let s1 := applyBatchState winner_id loser_id region tourney_id time s w l
  { s1 with
    match_history := s1.match_history ++ [(s.nextId, newMatchRecord winner_id loser_id region tourney_id time w l)]
    nextId := s.nextId + 1 }

/-- `process_match_elo` (lines 129-165).  Returns the pair
`(match id or None, error message or None)` mirroring the Python return
values, together with the final state. -/
noncomputable def process_match_elo (winner_id loser_id : String) (region : Region)
    (tourney_id : Option String) (time : ℤ) (s : State) :
    (Option ℕ × Option String) × State :=
  match lookupP s winner_id, lookupP s loser_id with
  | some w, some l =>
      ((some s.nextId, none),
        applyFinalState winner_id loser_id region tourney_id time s w l)
  | _, _ => ((none, some "Winner or loser not found in database."), s)

/-- The commit points of one `process_match_elo` call: the store states a
concurrent observer (or a crash) can leave behind.  The player batch of
line 155 and the match-record write of line 164 are two separate commits,
so the intermediate state is reachable. -/
noncomputable def process_match_outcomes (winner_id loser_id : String) (region : Region)
    (tourney_id : Option String) (time : ℤ) (s : State) : List State :=
  match lookupP s winner_id, lookupP s loser_id with
  | some w, some l =>
      [s, applyBatchState winner_id loser_id region tourney_id time s w l,
        applyFinalState winner_id loser_id region tourney_id time s w l]
  | _, _ => [s]

/-- The winner half of the revert batch (line 414). -/
def revert_winner_doc (region : Region) (elo_change : ℤ) (p : PlayerData) : PlayerData :=
  let p1 := eloUpd region (fun e => e + (-elo_change)) p
  { p1 with wins := p1.wins - 1, matches_played := p1.matches_played - 1 }

/-- The loser half of the revert batch (line 415). -/
def revert_loser_doc (region : Region) (elo_change : ℤ) (p : PlayerData) : PlayerData :=
  let p1 := eloUpd region (fun e => e + elo_change) p
  { p1 with losses := p1.losses - 1, matches_played := p1.matches_played - 1 }

/-- `revert_match` (lines 400-418): look the record up, subtract the
stored delta and counter increments from both players and delete the
record, all in one batch; unknown ids produce the error reply of line
407 and leave the state untouched. -/
def revert_match (mid : ℕ) (s : State) : Option String × State :=
  match lookupM s mid with
  | none => (some "Error: Match ID not found.", s)
  | some m =>
      let s1 := batchUpdateP s m.winner_id (revert_winner_doc m.region m.elo_change)
      let s2 := batchUpdateP s1 m.loser_id (revert_loser_doc m.region m.elo_change)
      (none, { s2 with match_history := s2.match_history.filter fun e => e.1 != mid })

/-- The fresh player document of `register` (lines 223-230). -/
def newPlayerData (discord_id discord_name roblox_username clan country : String)
    (time : ℤ) : PlayerData :=
  { discord_id := discord_id
    discord_name := discord_name
    roblox_username := roblox_username
    clan := clan
    country := country
    elo_na := STARTING_ELO
    elo_eu := STARTING_ELO
    elo_as := STARTING_ELO
    wins := 0
    wins_na := 0
    wins_eu := 0
    wins_as := 0
    losses := 0
    losses_na := 0
    losses_eu := 0
    losses_as := 0
    matches_played := 0
    tournaments_participated := []
    last_played_date := time
    current_win_streak := 0
    current_loss_streak := 0
    best_win_streak := 0
    wins_NA := 0
    wins_EU := 0
    wins_AS := 0
    losses_NA := 0
    losses_EU := 0
    losses_AS := 0 }

/-- `register` (lines 215-232): reject an existing id, otherwise create
the fresh document. -/
def register (uid discord_name roblox_username clan country : String) (time : ℤ)
    (s : State) : State :=
  if (lookupP s uid).isSome then s
  else { s with players := s.players ++ [(uid, newPlayerData uid discord_name roblox_username clan country time)] }

/-- The per-region decay write of lines 176-179. -/
def decayPlayer (p : PlayerData) : PlayerData :=
  { p with
    elo_na := if STARTING_ELO < p.elo_na then max STARTING_ELO (p.elo_na - DECAY_AMOUNT) else p.elo_na
    elo_eu := if STARTING_ELO < p.elo_eu then max STARTING_ELO (p.elo_eu - DECAY_AMOUNT) else p.elo_eu
    elo_as := if STARTING_ELO < p.elo_as then max STARTING_ELO (p.elo_as - DECAY_AMOUNT) else p.elo_as }

/-- Whether the decay loop produced a nonempty `update_data` for this
player (line 180), i.e. whether a write happens at all. -/
def decayWrites (p : PlayerData) : Bool :=
  decide (STARTING_ELO < p.elo_na) || decide (STARTING_ELO < p.elo_eu) ||
    decide (STARTING_ELO < p.elo_as)

/-- The effect of one decay run on one player document: selected players
(`last_played_date < cutoff`, line 172) with some rating above baseline
get the decay write, everyone else is untouched. -/
def decayStep (cutoff : ℤ) (p : PlayerData) : PlayerData :=
  if decide (p.last_played_date < cutoff) && decayWrites p then decayPlayer p else p

/-- `daily_elo_decay` (lines 167-184) with the cutoff `now - 30 days` as
a parameter; also returns `decayed_count`, the number of player documents
actually written. -/
def daily_elo_decay (cutoff : ℤ) (s : State) : State × ℕ :=
  ({ s with players := s.players.map fun e => (e.1, decayStep cutoff e.2) },
    s.players.countP fun e => decide (e.2.last_played_date < cutoff) && decayWrites e.2)

/-- `set_elo` (lines 420-431): unvalidated admin overwrite of one
regional rating. -/
def set_elo (uid : String) (region : Region) (value : ℤ) (s : State) : State :=
  if (lookupP s uid).isSome then batchUpdateP s uid (eloUpd region (fun _ => value)) else s

/-- `edit_profile` (lines 382-398): admin overwrite of the identity
strings. -/
def edit_profile (uid : String) (new_roblox_username new_clan new_country : Option String)
    (s : State) : State :=
  if (lookupP s uid).isSome then
    batchUpdateP s uid fun p =>
      let p1 := match new_roblox_username with
        | some v => { p with roblox_username := v }
        | none => p
      let p2 := match new_clan with
        | some v => { p1 with clan := v }
        | none => p1
      match new_country with
      | some v => { p2 with country := v }
      | none => p2
  else s

/-- The empty store. -/
def initState : State := ⟨[], [], 0⟩

/-- The states reachable from the empty store by the public operations. -/
inductive Reachable : State → Prop
  | init : Reachable initState
  | register_step (uid dn ru cl co : String) (t : ℤ) {s : State} :
      Reachable s → Reachable (register uid dn ru cl co t s)
  | apply_step (w l : String) (region : Region) (tid : Option String) (t : ℤ) {s : State} :
      Reachable s → Reachable (process_match_elo w l region tid t s).2
  | revert_step (mid : ℕ) {s : State} :
      Reachable s → Reachable (revert_match mid s).2
  | decay_step (cutoff : ℤ) {s : State} :
      Reachable s → Reachable (daily_elo_decay cutoff s).1
  | set_elo_step (uid : String) (region : Region) (v : ℤ) {s : State} :
      Reachable s → Reachable (set_elo uid region v s)
  | edit_step (uid : String) (ru cl co : Option String) {s : State} :
      Reachable s → Reachable (edit_profile uid ru cl co s)

/-- The heterogeneous field values a Firestore document stores. -/
inductive FireValue
  | str : String → FireValue
  | int : ℤ → FireValue
  | ts : ℤ → FireValue
  | null
deriving DecidableEq

/-- The region strings of the command choices. -/
def regionStr : Region → String
  | .NA => "NA"
  | .EU => "EU"
  | .AS => "AS"

/-- The dictionary `process_match_elo` stores as the match record (line
164), key for key. -/
def matchRecordFields (m : MatchRecord) : List (String × FireValue) :=
  [("winner_id", .str m.winner_id),
   ("loser_id", .str m.loser_id),
   ("elo_change", .int m.elo_change),
   ("region", .str (regionStr m.region)),
   ("timestamp", .ts m.timestamp),
   ("tournament_id", match m.tournament_id with | some t => .str t | none => .null)]

/-- Python `d[k]` on a stored document, `none` meaning `KeyError`. -/
def dictGet (d : List (String × FireValue)) (k : String) : Option FireValue :=
  (d.find? fun e => e.1 == k).map Prod.snd

/-- The initial-rating read of `elo_graph` (lines 329-330):
`first_match_data['winner_elo_before']` when the player won the first
recorded match, `first_match_data['loser_elo_before']` otherwise. -/
def elo_graph_initial_elo (player_id : String) (first_match : MatchRecord) :
    Option FireValue :=
  if first_match.winner_id == player_id then
    dictGet (matchRecordFields first_match) "winner_elo_before"
  else
    dictGet (matchRecordFields first_match) "loser_elo_before"

/-- Live match records naming `uid` as winner. -/
def winCount (s : State) (uid : String) : ℕ :=
  s.match_history.countP fun e => e.2.winner_id == uid

/-- Live match records naming `uid` as loser. -/
def lossCount (s : State) (uid : String) : ℕ :=
  s.match_history.countP fun e => e.2.loser_id == uid

/-- The ledger invariant behind counter non-negativity: every player's
counters dominate the counts of live match records naming them, and
every live match record names registered players. -/
def Inv (s : State) : Prop :=
  (∀ uid p, lookupP s uid = some p →
    (winCount s uid : ℤ) ≤ p.wins ∧ (lossCount s uid : ℤ) ≤ p.losses ∧
    ((winCount s uid : ℤ) + (lossCount s uid : ℤ)) ≤ p.matches_played) ∧
  (∀ e ∈ s.match_history, (lookupP s e.2.winner_id).isSome ∧ (lookupP s e.2.loser_id).isSome)

/-- Test fixture: the player document created for discord id "1". -/
def pA : PlayerData := newPlayerData "1" "alice" "robloxA" "clanA" "au" 0

/-- Test fixture: the player document created for discord id "2". -/
def pB : PlayerData := newPlayerData "2" "bob" "robloxB" "clanB" "us" 0

/-- Test fixture: two freshly registered players. -/
def testState : State :=
  register "2" "bob" "robloxB" "clanB" "us" 0
    (register "1" "alice" "robloxA" "clanA" "au" 0 initState)

/-- Test fixture: a single freshly registered player. -/
def selfState : State :=
  register "1" "alice" "robloxA" "clanA" "au" 0 initState

/-- Test fixture: an inactive player whose NA rating sits 50 above
baseline. -/
def pDecay : PlayerData := { pA with elo_na := 1250 }

/-- Test fixture: store holding just `pDecay`. -/
def decayState : State := ⟨[("1", pDecay)], [], 0⟩

/-- Test fixture: an inactive player whose NA rating sits 25 above
baseline. -/
def pDecay2 : PlayerData := { pA with elo_na := 1225 }

/-- Test fixture: store holding just `pDecay2`. -/
def decayState2 : State := ⟨[("1", pDecay2)], [], 0⟩

/-- Test fixture: a committed match record between "1" and "2". -/
def rec0 : MatchRecord := ⟨"1", "2", 32, Region.NA, 1, none⟩

/-- Test fixture: two registered players and one committed match. -/
def revState : State := ⟨[("1", pA), ("2", pB)], [(0, rec0)], 1⟩

/-- The player fields `revert_match` never writes: identity strings, the
per-region win/loss counters (both the lowercase fields `register`
creates and the uppercase ones `process_match_elo` increments), streak
state, the best-streak watermark, the last-played timestamp and the
tournament-participation list. -/
def untouchedByRevert (p q : PlayerData) : Prop :=
  q.discord_id = p.discord_id ∧ q.discord_name = p.discord_name ∧
  q.roblox_username = p.roblox_username ∧ q.clan = p.clan ∧ q.country = p.country ∧
  q.wins_na = p.wins_na ∧ q.wins_eu = p.wins_eu ∧ q.wins_as = p.wins_as ∧
  q.losses_na = p.losses_na ∧ q.losses_eu = p.losses_eu ∧ q.losses_as = p.losses_as ∧
  q.wins_NA = p.wins_NA ∧ q.wins_EU = p.wins_EU ∧ q.wins_AS = p.wins_AS ∧
  q.losses_NA = p.losses_NA ∧ q.losses_EU = p.losses_EU ∧ q.losses_AS = p.losses_AS ∧
  q.current_win_streak = p.current_win_streak ∧
  q.current_loss_streak = p.current_loss_streak ∧
  q.best_win_streak = p.best_win_streak ∧
  q.last_played_date = p.last_played_date ∧
  q.tournaments_participated = p.tournaments_participated

/-! ### Association-list and store lemmas -/

theorem find?_map_key_pres (l : List (String × PlayerData))
    (g : String × PlayerData → String × PlayerData)
    (hg : ∀ e, (g e).1 = e.1) (k : String) :
    (l.map g).find? (fun e => e.1 == k) = (l.find? fun e => e.1 == k).map g := by
  rw [List.find?_map]
  have h : ((fun e : String × PlayerData => e.1 == k) ∘ g) = fun e => e.1 == k :=
    funext fun e => by simp [Function.comp, hg e]
  rw [h]

theorem lookupP_batchUpdateP (s : State) (k : String) (f : PlayerData → PlayerData)
    (k' : String) :
    lookupP (batchUpdateP s k f) k' =
      if k' = k then (lookupP s k').map f else lookupP s k' := by
  unfold lookupP batchUpdateP updP
  rw [show ({ s with players := s.players.map fun e => if e.1 == k then (e.1, f e.2) else e } : State).players
        = s.players.map fun e => if e.1 == k then (e.1, f e.2) else e from rfl]
  rw [find?_map_key_pres _ _ (fun e => by by_cases h : e.1 == k <;> simp [h]) k']
  cases hfind : s.players.find? (fun e => e.1 == k') with
  | none => simp
  | some e =>
      have he : e.1 = k' := by simpa using List.find?_some hfind
      by_cases hk : k' = k
      · subst hk; simp [he]
      · simp [he, hk]

theorem lookupP_daily_elo_decay (cutoff : ℤ) (s : State) (uid : String) :
    lookupP (daily_elo_decay cutoff s).1 uid = (lookupP s uid).map (decayStep cutoff) := by
  unfold lookupP daily_elo_decay
  rw [show ({ s with players := s.players.map fun e => (e.1, decayStep cutoff e.2) } : State).players
        = s.players.map fun e => (e.1, decayStep cutoff e.2) from rfl]
  rw [find?_map_key_pres s.players (fun e => (e.1, decayStep cutoff e.2)) (fun e => rfl) uid]
  cases hfind : s.players.find? (fun e => e.1 == uid) <;> simp

theorem find?_key_append_fresh (l : List (ℕ × MatchRecord)) (n : ℕ) (r : MatchRecord)
    (h : ∀ e ∈ l, e.1 ≠ n) :
    ((l ++ [(n, r)]).find? fun e => e.1 == n) = some (n, r) := by
  rw [List.find?_append]
  have h1 : l.find? (fun e => e.1 == n) = none :=
    List.find?_eq_none.2 fun x hx => by simp [h x hx]
  simp [h1]

theorem find?_key_filter_self (l : List (ℕ × MatchRecord)) (mid : ℕ) :
    ((l.filter fun e => e.1 != mid).find? fun e => e.1 == mid) = none := by
  refine List.find?_eq_none.2 fun x hx => ?_
  have hne := (List.mem_filter.1 hx).2
  simp only [bne_iff_ne, ne_eq] at hne
  simpa using hne

theorem find?_key_filter_other (l : List (ℕ × MatchRecord)) (mid mid' : ℕ)
    (h : mid' ≠ mid) :
    ((l.filter fun e => e.1 != mid).find? fun e => e.1 == mid') =
      l.find? fun e => e.1 == mid' := by
  induction l with
  | nil => simp
  | cons x t ih =>
      simp only [List.filter_cons]
      by_cases hx : x.1 = mid
      · have h1 : (x.1 != mid) = false := by simp [hx]
        have h2 : (x.1 == mid') = false := by rw [hx]; simp; omega
        simp [h1, List.find?_cons, h2, ih]
      · have h1 : (x.1 != mid) = true := by simpa using hx
        by_cases h3 : x.1 = mid'
        · have h2 : (x.1 == mid') = true := by simp [h3]
          simp [h1, List.find?_cons, h2]
        · have h2 : (x.1 == mid') = false := by simp [h3]
          simp [h1, List.find?_cons, h2, ih]

theorem lookupM_mem {s : State} {mid : ℕ} {m : MatchRecord}
    (h : lookupM s mid = some m) : (mid, m) ∈ s.match_history := by
  unfold lookupM at h
  cases hf : s.match_history.find? (fun e => e.1 == mid) with
  | none => rw [hf] at h; cases h
  | some e =>
      rw [hf] at h
      have h2 : e.2 = m := by simpa using h
      have h1 : e.1 = mid := by simpa using List.find?_some hf
      have h3 := List.mem_of_find?_eq_some hf
      have : e = (mid, m) := by cases e; simp_all
      rwa [this] at h3

/-! ### Projection lemmas for the document updates -/

theorem update_winner_doc_wins (r : Region) (d ws wb t : ℤ) (aT : Option String)
    (p : PlayerData) : (update_winner_doc r d ws wb t aT p).wins = p.wins + 1 := by
  cases r <;> cases aT <;> rfl

theorem update_winner_doc_losses (r : Region) (d ws wb t : ℤ) (aT : Option String)
    (p : PlayerData) : (update_winner_doc r d ws wb t aT p).losses = p.losses := by
  cases r <;> cases aT <;> rfl

theorem update_winner_doc_matches_played (r : Region) (d ws wb t : ℤ) (aT : Option String)
    (p : PlayerData) :
    (update_winner_doc r d ws wb t aT p).matches_played = p.matches_played + 1 := by
  cases r <;> cases aT <;> rfl

theorem update_winner_doc_eloGet (r : Region) (d ws wb t : ℤ) (aT : Option String)
    (p : PlayerData) (r' : Region) :
    eloGet (update_winner_doc r d ws wb t aT p) r' =
      if r' = r then eloGet p r' + d else eloGet p r' := by
  cases r <;> cases r' <;> cases aT <;>
    simp [update_winner_doc, eloUpd, winsRegUpd, eloGet]

theorem update_loser_doc_wins (r : Region) (d t : ℤ) (aT : Option String)
    (p : PlayerData) : (update_loser_doc r d t aT p).wins = p.wins := by
  cases r <;> cases aT <;> rfl

theorem update_loser_doc_losses (r : Region) (d t : ℤ) (aT : Option String)
    (p : PlayerData) : (update_loser_doc r d t aT p).losses = p.losses + 1 := by
  cases r <;> cases aT <;> rfl

theorem update_loser_doc_matches_played (r : Region) (d t : ℤ) (aT : Option String)
    (p : PlayerData) :
    (update_loser_doc r d t aT p).matches_played = p.matches_played + 1 := by
  cases r <;> cases aT <;> rfl

theorem update_loser_doc_eloGet (r : Region) (d t : ℤ) (aT : Option String)
    (p : PlayerData) (r' : Region) :
    eloGet (update_loser_doc r d t aT p) r' =
      if r' = r then eloGet p r' + (-d) else eloGet p r' := by
  cases r <;> cases r' <;> cases aT <;>
    simp [update_loser_doc, eloUpd, lossesRegUpd, eloGet]

theorem update_winner_doc_cws (r : Region) (d ws wb t : ℤ) (aT : Option String)
    (p : PlayerData) : (update_winner_doc r d ws wb t aT p).current_win_streak = ws := by
  cases r <;> cases aT <;> rfl

theorem update_loser_doc_cws (r : Region) (d t : ℤ) (aT : Option String)
    (p : PlayerData) : (update_loser_doc r d t aT p).current_win_streak = 0 := by
  cases r <;> cases aT <;> rfl

theorem update_loser_doc_cls (r : Region) (d t : ℤ) (aT : Option String)
    (p : PlayerData) :
    (update_loser_doc r d t aT p).current_loss_streak = p.current_loss_streak + 1 := by
  cases r <;> cases aT <;> rfl

theorem revert_winner_doc_wins (r : Region) (d : ℤ) (p : PlayerData) :
    (revert_winner_doc r d p).wins = p.wins - 1 := by
  cases r <;> rfl

theorem revert_winner_doc_losses (r : Region) (d : ℤ) (p : PlayerData) :
    (revert_winner_doc r d p).losses = p.losses := by
  cases r <;> rfl

theorem revert_winner_doc_matches_played (r : Region) (d : ℤ) (p : PlayerData) :
    (revert_winner_doc r d p).matches_played = p.matches_played - 1 := by
  cases r <;> rfl

theorem revert_winner_doc_eloGet (r : Region) (d : ℤ) (p : PlayerData) (r' : Region) :
    eloGet (revert_winner_doc r d p) r' =
      if r' = r then eloGet p r' + (-d) else eloGet p r' := by
  cases r <;> cases r' <;> simp [revert_winner_doc, eloUpd, eloGet]

theorem revert_loser_doc_wins (r : Region) (d : ℤ) (p : PlayerData) :
    (revert_loser_doc r d p).wins = p.wins := by
  cases r <;> rfl

theorem revert_loser_doc_losses (r : Region) (d : ℤ) (p : PlayerData) :
    (revert_loser_doc r d p).losses = p.losses - 1 := by
  cases r <;> rfl

theorem revert_loser_doc_matches_played (r : Region) (d : ℤ) (p : PlayerData) :
    (revert_loser_doc r d p).matches_played = p.matches_played - 1 := by
  cases r <;> rfl

theorem revert_loser_doc_eloGet (r : Region) (d : ℤ) (p : PlayerData) (r' : Region) :
    eloGet (revert_loser_doc r d p) r' =
      if r' = r then eloGet p r' + d else eloGet p r' := by
  cases r <;> cases r' <;> simp [revert_loser_doc, eloUpd, eloGet]

theorem untouchedByRevert_refl (p : PlayerData) : untouchedByRevert p p := by
  simp [untouchedByRevert]

theorem untouchedByRevert_trans {p q r : PlayerData}
    (h1 : untouchedByRevert p q) (h2 : untouchedByRevert q r) :
    untouchedByRevert p r := by
  unfold untouchedByRevert at h1 h2 ⊢
  obtain ⟨a1, a2, a3, a4, a5, a6, a7, a8, a9, a10, a11, a12, a13, a14, a15, a16,
    a17, a18, a19, a20, a21, a22⟩ := h1
  obtain ⟨b1, b2, b3, b4, b5, b6, b7, b8, b9, b10, b11, b12, b13, b14, b15, b16,
    b17, b18, b19, b20, b21, b22⟩ := h2
  exact ⟨b1.trans a1, b2.trans a2, b3.trans a3, b4.trans a4, b5.trans a5,
    b6.trans a6, b7.trans a7, b8.trans a8, b9.trans a9, b10.trans a10,
    b11.trans a11, b12.trans a12, b13.trans a13, b14.trans a14, b15.trans a15,
    b16.trans a16, b17.trans a17, b18.trans a18, b19.trans a19, b20.trans a20,
    b21.trans a21, b22.trans a22⟩

theorem untouchedByRevert_winner (r : Region) (d : ℤ) (p : PlayerData) :
    untouchedByRevert p (revert_winner_doc r d p) := by
  cases r <;> simp [untouchedByRevert, revert_winner_doc, eloUpd]

theorem untouchedByRevert_loser (r : Region) (d : ℤ) (p : PlayerData) :
    untouchedByRevert p (revert_loser_doc r d p) := by
  cases r <;> simp [untouchedByRevert, revert_loser_doc, eloUpd]

/-! ### Rounding and rating-model lemmas -/

theorem pyRound_intCast (n : ℤ) : pyRound (n : ℝ) = n := by
  unfold pyRound
  rw [Int.floor_intCast]
  norm_num

theorem get_overall_elo_newPlayer (did dn ru cl co : String) (t : ℤ) :
    get_overall_elo (newPlayerData did dn ru cl co t) = 1200 := by
  unfold get_overall_elo newPlayerData STARTING_ELO
  rw [show ((1200 + 1200 + 1200 : ℤ) : ℝ) / 3 = ((1200 : ℤ) : ℝ) by push_cast; norm_num]
  exact pyRound_intCast 1200

theorem expected_win_self (e : ℤ) : expected_win e e = 1 / 2 := by
  unfold expected_win
  rw [show ((e - e : ℤ) : ℝ) / 400 = 0 by push_cast; ring, Real.rpow_zero]
  norm_num

/-! ### Counting lemmas for the ledger invariant -/

theorem countP_filter_key_lt (l : List (ℕ × MatchRecord)) (mid : ℕ) (m : MatchRecord)
    (Q : ℕ × MatchRecord → Bool) (hm : (mid, m) ∈ l) (hQ : Q (mid, m) = true) :
    (l.filter fun e => e.1 != mid).countP Q + 1 ≤ l.countP Q := by
  induction l with
  | nil => cases hm
  | cons x t ih =>
      simp only [List.filter_cons, List.countP_cons]
      by_cases hx : x.1 = mid
      · have h1 : (x.1 != mid) = false := by simp [hx]
        rcases List.mem_cons.1 hm with heq | hmt
        · have hQx : Q x = true := by rw [← heq]; exact hQ
          have hle := (List.filter_sublist (p := fun e => e.1 != mid) t).countP_le Q
          simp [h1, hQx]
          omega
        · have := ih hmt
          by_cases hQx : Q x = true <;> simp [h1, hQx] <;> omega
      · have h1 : (x.1 != mid) = true := by simpa using hx
        rcases List.mem_cons.1 hm with heq | hmt
        · exact absurd (congrArg Prod.fst heq.symm) hx
        · have := ih hmt
          by_cases hQx : Q x = true <;> simp [h1, List.countP_cons, hQx] <;> omega

/-! ### Preservation of the ledger invariant -/

theorem winCount_batchUpdateP (s : State) (k : String) (f : PlayerData → PlayerData)
    (uid : String) : winCount (batchUpdateP s k f) uid = winCount s uid := rfl

theorem lossCount_batchUpdateP (s : State) (k : String) (f : PlayerData → PlayerData)
    (uid : String) : lossCount (batchUpdateP s k f) uid = lossCount s uid := rfl

theorem isSome_lookupP_batchUpdateP (s : State) (k : String) (f : PlayerData → PlayerData)
    (uid : String) :
    (lookupP (batchUpdateP s k f) uid).isSome = (lookupP s uid).isSome := by
  rw [lookupP_batchUpdateP]
  by_cases h : uid = k <;> simp [h]

theorem winCount_eq_zero_of_none {s : State} {uid : String}
    (h2 : ∀ e ∈ s.match_history, (lookupP s e.2.winner_id).isSome ∧
      (lookupP s e.2.loser_id).isSome)
    (hu : lookupP s uid = none) : winCount s uid = 0 := by
  unfold winCount
  rw [List.countP_eq_zero]
  intro e he hq
  have h3 := (h2 e he).1
  rw [beq_iff_eq] at hq
  rw [hq, hu] at h3
  cases h3

theorem lossCount_eq_zero_of_none {s : State} {uid : String}
    (h2 : ∀ e ∈ s.match_history, (lookupP s e.2.winner_id).isSome ∧
      (lookupP s e.2.loser_id).isSome)
    (hu : lookupP s uid = none) : lossCount s uid = 0 := by
  unfold lossCount
  rw [List.countP_eq_zero]
  intro e he hq
  have h3 := (h2 e he).2
  rw [beq_iff_eq] at hq
  rw [hq, hu] at h3
  cases h3

theorem inv_register (uid dn ru cl co : String) (t : ℤ) {s : State} (h : Inv s) :
    Inv (register uid dn ru cl co t s) := by
  by_cases hreg : (lookupP s uid).isSome
  · unfold register
    rw [if_pos hreg]
    exact h
  · unfold register
    rw [if_neg hreg]
    have hu : lookupP s uid = none := by
      cases hl : lookupP s uid with
      | none => rfl
      | some _ => rw [hl] at hreg; simp at hreg
    refine ⟨?_, ?_⟩
    · intro k p hp
      have hwc : winCount { s with players := s.players ++ [(uid, newPlayerData uid dn ru cl co t)] } k = winCount s k := rfl
      have hlc : lossCount { s with players := s.players ++ [(uid, newPlayerData uid dn ru cl co t)] } k = lossCount s k := rfl
      rw [hwc, hlc]
      unfold lookupP at hp
      rw [show ({ s with players := s.players ++ [(uid, newPlayerData uid dn ru cl co t)] } : State).players
            = s.players ++ [(uid, newPlayerData uid dn ru cl co t)] from rfl,
          List.find?_append] at hp
      cases hf : s.players.find? (fun e => e.1 == k) with
      | some e =>
          rw [hf] at hp
          have hpe : e.2 = p := by simpa using hp
          have hsk : lookupP s k = some p := by
            unfold lookupP
            rw [hf]
            simp [hpe]
          exact h.1 k p hsk
      | none =>
          rw [hf] at hp
          simp only [Option.none_or] at hp
          by_cases hk : uid = k
          · subst hk
            have hp2 : p = newPlayerData uid dn ru cl co t := by
              simp [List.find?] at hp
              exact hp.symm
            have hw0 : winCount s uid = 0 := winCount_eq_zero_of_none h.2 hu
            have hl0 : lossCount s uid = 0 := lossCount_eq_zero_of_none h.2 hu
            rw [hw0, hl0, hp2]
            simp [newPlayerData]
          · exfalso
            have hne : (uid == k) = false := by simp [hk]
            simp [List.find?, hne] at hp
    · intro e he
      have h2 := h.2 e he
      constructor
      · rcases Option.isSome_iff_exists.1 h2.1 with ⟨q, hq⟩
        unfold lookupP at hq ⊢
        rw [show ({ s with players := s.players ++ [(uid, newPlayerData uid dn ru cl co t)] } : State).players
              = s.players ++ [(uid, newPlayerData uid dn ru cl co t)] from rfl,
            List.find?_append]
        cases hf : s.players.find? (fun e2 => e2.1 == e.2.winner_id) with
        | some e2 => simp
        | none => rw [hf] at hq; simp at hq
      · rcases Option.isSome_iff_exists.1 h2.2 with ⟨q, hq⟩
        unfold lookupP at hq ⊢
        rw [show ({ s with players := s.players ++ [(uid, newPlayerData uid dn ru cl co t)] } : State).players
              = s.players ++ [(uid, newPlayerData uid dn ru cl co t)] from rfl,
            List.find?_append]
        cases hf : s.players.find? (fun e2 => e2.1 == e.2.loser_id) with
        | some e2 => simp
        | none => rw [hf] at hq; simp at hq

theorem inv_double_update_append
    (s : State) (h : Inv s) (w l : String) (fW fL : PlayerData → PlayerData)
    (rec : MatchRecord) (nid : ℕ)
    (hrecw : rec.winner_id = w) (hrecl : rec.loser_id = l)
    (hw : (lookupP s w).isSome) (hl : (lookupP s l).isSome)
    (hWwins : ∀ p, (fW p).wins = p.wins + 1)
    (hWlosses : ∀ p, (fW p).losses = p.losses)
    (hWmp : ∀ p, (fW p).matches_played = p.matches_played + 1)
    (hLwins : ∀ p, (fL p).wins = p.wins)
    (hLlosses : ∀ p, (fL p).losses = p.losses + 1)
    (hLmp : ∀ p, (fL p).matches_played = p.matches_played + 1) :
    Inv { batchUpdateP (batchUpdateP s w fW) l fL with
          match_history := s.match_history ++ [(nid, rec)], nextId := s.nextId + 1 } := by
  set s2 : State := { batchUpdateP (batchUpdateP s w fW) l fL with
    match_history := s.match_history ++ [(nid, rec)], nextId := s.nextId + 1 } with hs2
  have hlp : ∀ uid, lookupP s2 uid =
      (if uid = l then
        (if uid = w then (lookupP s uid).map fW else lookupP s uid).map fL
      else if uid = w then (lookupP s uid).map fW else lookupP s uid) := by
    intro uid
    have e1 : lookupP s2 uid = lookupP (batchUpdateP (batchUpdateP s w fW) l fL) uid := rfl
    rw [e1, lookupP_batchUpdateP, lookupP_batchUpdateP]
  have hwc : ∀ uid, winCount s2 uid = winCount s uid + (if w = uid then 1 else 0) := by
    intro uid
    unfold winCount
    rw [show s2.match_history = s.match_history ++ [(nid, rec)] from rfl,
        List.countP_append]
    simp [List.countP_cons, hrecw, beq_iff_eq]
  have hlc : ∀ uid, lossCount s2 uid = lossCount s uid + (if l = uid then 1 else 0) := by
    intro uid
    unfold lossCount
    rw [show s2.match_history = s.match_history ++ [(nid, rec)] from rfl,
        List.countP_append]
    simp [List.countP_cons, hrecl, beq_iff_eq]
  have hsome : ∀ x, (lookupP s2 x).isSome = (lookupP s x).isSome := by
    intro x
    have e1 : lookupP s2 x = lookupP (batchUpdateP (batchUpdateP s w fW) l fL) x := rfl
    rw [e1, isSome_lookupP_batchUpdateP, isSome_lookupP_batchUpdateP]
  constructor
  · intro uid p hp
    rw [hlp] at hp
    rw [hwc, hlc]
    by_cases hul : uid = l <;> by_cases huw : uid = w
    · rw [if_pos hul, if_pos huw] at hp
      cases hq : lookupP s uid with
      | none => rw [hq] at hp; cases hp
      | some q =>
          rw [hq] at hp
          have hpq : fL (fW q) = p := by simpa using hp
          have base := h.1 uid q hq
          rw [← hpq, hLwins, hLlosses, hLmp, hWwins, hWlosses, hWmp,
            if_pos (huw ▸ rfl), if_pos (hul ▸ rfl)]
          push_cast
          omega
    · rw [if_pos hul, if_neg huw] at hp
      cases hq : lookupP s uid with
      | none => rw [hq] at hp; cases hp
      | some q =>
          rw [hq] at hp
          have hpq : fL q = p := by simpa using hp
          have base := h.1 uid q hq
          rw [← hpq, hLwins, hLlosses, hLmp,
            if_neg (fun hc => huw hc.symm), if_pos (hul ▸ rfl)]
          push_cast
          omega
    · rw [if_neg hul, if_pos huw] at hp
      cases hq : lookupP s uid with
      | none => rw [hq] at hp; cases hp
      | some q =>
          rw [hq] at hp
          have hpq : fW q = p := by simpa using hp
          have base := h.1 uid q hq
          rw [← hpq, hWwins, hWlosses, hWmp,
            if_pos (huw ▸ rfl), if_neg (fun hc => hul hc.symm)]
          push_cast
          omega
    · rw [if_neg hul, if_neg huw] at hp
      have base := h.1 uid p hp
      rw [if_neg (fun hc => huw hc.symm), if_neg (fun hc => hul hc.symm)]
      push_cast
      omega
  · intro e he
    rw [show s2.match_history = s.match_history ++ [(nid, rec)] from rfl] at he
    rcases List.mem_append.1 he with hold | hnew
    · have h2 := h.2 e hold
      rw [hsome, hsome]
      exact h2
    · have : e = (nid, rec) := by simpa using hnew
      rw [this, hsome, hsome]
      constructor
      · rw [show (nid, rec).2.winner_id = w from hrecw]
        exact hw
      · rw [show (nid, rec).2.loser_id = l from hrecl]
        exact hl

theorem inv_apply (w l : String) (region : Region) (tid : Option String) (t : ℤ)
    {s : State} (h : Inv s) : Inv (process_match_elo w l region tid t s).2 := by
  cases hw : lookupP s w with
  | none =>
      have hst : (process_match_elo w l region tid t s).2 = s := by
        unfold process_match_elo
        rw [hw]
      rw [hst]
      exact h
  | some wd =>
      cases hl : lookupP s l with
      | none =>
          have hst : (process_match_elo w l region tid t s).2 = s := by
            unfold process_match_elo
            rw [hw, hl]
          rw [hst]
          exact h
      | some ld =>
          have hst : (process_match_elo w l region tid t s).2 =
              applyFinalState w l region tid t s wd ld := by
            unfold process_match_elo
            rw [hw, hl]
          rw [hst]
          have heq : applyFinalState w l region tid t s wd ld =
              { batchUpdateP (batchUpdateP s w
                  (update_winner_doc region (calculate_elo_change wd ld)
                    (wd.current_win_streak + 1)
                    (max (wd.current_win_streak + 1) wd.best_win_streak) t
                    (tourneyToAdd tid wd))) l
                  (update_loser_doc region (calculate_elo_change wd ld) t
                    (tourneyToAdd tid ld)) with
                match_history := s.match_history ++
                  [(s.nextId, newMatchRecord w l region tid t wd ld)],
                nextId := s.nextId + 1 } := rfl
          rw [heq]
          exact inv_double_update_append s h w l _ _
            (newMatchRecord w l region tid t wd ld) s.nextId rfl rfl
            (by rw [hw]; rfl) (by rw [hl]; rfl)
            (fun p => update_winner_doc_wins _ _ _ _ _ _ p)
            (fun p => update_winner_doc_losses _ _ _ _ _ _ p)
            (fun p => update_winner_doc_matches_played _ _ _ _ _ _ p)
            (fun p => update_loser_doc_wins _ _ _ _ p)
            (fun p => update_loser_doc_losses _ _ _ _ p)
            (fun p => update_loser_doc_matches_played _ _ _ _ p)

theorem inv_double_update_filter
    (s : State) (h : Inv s) (mid : ℕ) (m : MatchRecord)
    (hm : lookupM s mid = some m)
    (fW fL : PlayerData → PlayerData)
    (hWwins : ∀ p, (fW p).wins = p.wins - 1)
    (hWlosses : ∀ p, (fW p).losses = p.losses)
    (hWmp : ∀ p, (fW p).matches_played = p.matches_played - 1)
    (hLwins : ∀ p, (fL p).wins = p.wins)
    (hLlosses : ∀ p, (fL p).losses = p.losses - 1)
    (hLmp : ∀ p, (fL p).matches_played = p.matches_played - 1) :
    Inv { batchUpdateP (batchUpdateP s m.winner_id fW) m.loser_id fL with
          match_history := s.match_history.filter fun e => e.1 != mid } := by
  have hmem := lookupM_mem hm
  set s2 : State := { batchUpdateP (batchUpdateP s m.winner_id fW) m.loser_id fL with
    match_history := s.match_history.filter fun e => e.1 != mid } with hs2
  have hlp : ∀ uid, lookupP s2 uid =
      (if uid = m.loser_id then
        (if uid = m.winner_id then (lookupP s uid).map fW else lookupP s uid).map fL
      else if uid = m.winner_id then (lookupP s uid).map fW else lookupP s uid) := by
    intro uid
    have e1 : lookupP s2 uid =
        lookupP (batchUpdateP (batchUpdateP s m.winner_id fW) m.loser_id fL) uid := rfl
    rw [e1, lookupP_batchUpdateP, lookupP_batchUpdateP]
  have hwcle : ∀ uid, winCount s2 uid ≤ winCount s uid := by
    intro uid
    exact (List.filter_sublist s.match_history).countP_le _
  have hlcle : ∀ uid, lossCount s2 uid ≤ lossCount s uid := by
    intro uid
    exact (List.filter_sublist s.match_history).countP_le _
  have hwclt : winCount s2 m.winner_id + 1 ≤ winCount s m.winner_id := by
    exact countP_filter_key_lt s.match_history mid m _ hmem (by simp)
  have hlclt : lossCount s2 m.loser_id + 1 ≤ lossCount s m.loser_id := by
    exact countP_filter_key_lt s.match_history mid m _ hmem (by simp)
  have hsome : ∀ x, (lookupP s2 x).isSome = (lookupP s x).isSome := by
    intro x
    have e1 : lookupP s2 x =
        lookupP (batchUpdateP (batchUpdateP s m.winner_id fW) m.loser_id fL) x := rfl
    rw [e1, isSome_lookupP_batchUpdateP, isSome_lookupP_batchUpdateP]
  constructor
  · intro uid p hp
    rw [hlp] at hp
    by_cases hul : uid = m.loser_id <;> by_cases huw : uid = m.winner_id
    · rw [if_pos hul, if_pos huw] at hp
      cases hq : lookupP s uid with
      | none => rw [hq] at hp; cases hp
      | some q =>
          rw [hq] at hp
          have hpq : fL (fW q) = p := by simpa using hp
          have base := h.1 uid q hq
          have hw1 : winCount s2 uid + 1 ≤ winCount s uid := huw ▸ hwclt
          have hl1 : lossCount s2 uid + 1 ≤ lossCount s uid := hul ▸ hlclt
          rw [← hpq, hLwins, hLlosses, hLmp, hWwins, hWlosses, hWmp]
          omega
    · rw [if_pos hul, if_neg huw] at hp
      cases hq : lookupP s uid with
      | none => rw [hq] at hp; cases hp
      | some q =>
          rw [hq] at hp
          have hpq : fL q = p := by simpa using hp
          have base := h.1 uid q hq
          have hw1 := hwcle uid
          have hl1 : lossCount s2 uid + 1 ≤ lossCount s uid := hul ▸ hlclt
          rw [← hpq, hLwins, hLlosses, hLmp]
          omega
    · rw [if_neg hul, if_pos huw] at hp
      cases hq : lookupP s uid with
      | none => rw [hq] at hp; cases hp
      | some q =>
          rw [hq] at hp
          have hpq : fW q = p := by simpa using hp
          have base := h.1 uid q hq
          have hw1 : winCount s2 uid + 1 ≤ winCount s uid := huw ▸ hwclt
          have hl1 := hlcle uid
          rw [← hpq, hWwins, hWlosses, hWmp]
          omega
    · rw [if_neg hul, if_neg huw] at hp
      have base := h.1 uid p hp
      have hw1 := hwcle uid
      have hl1 := hlcle uid
      omega
  · intro e he
    have he' : e ∈ s.match_history := List.mem_of_mem_filter he
    have h2 := h.2 e he'
    rw [hsome, hsome]
    exact h2

theorem inv_revert (mid : ℕ) {s : State} (h : Inv s) : Inv (revert_match mid s).2 := by
  cases hm : lookupM s mid with
  | none =>
      have hst : (revert_match mid s).2 = s := by
        unfold revert_match
        rw [hm]
      rw [hst]
      exact h
  | some m =>
      have hst : (revert_match mid s).2 =
          { batchUpdateP (batchUpdateP s m.winner_id
              (revert_winner_doc m.region m.elo_change)) m.loser_id
              (revert_loser_doc m.region m.elo_change) with
            match_history := s.match_history.filter fun e => e.1 != mid } := by
        unfold revert_match
        rw [hm]
        rfl
      rw [hst]
      exact inv_double_update_filter s h mid m hm _ _
        (fun p => revert_winner_doc_wins _ _ p)
        (fun p => revert_winner_doc_losses _ _ p)
        (fun p => revert_winner_doc_matches_played _ _ p)
        (fun p => revert_loser_doc_wins _ _ p)
        (fun p => revert_loser_doc_losses _ _ p)
        (fun p => revert_loser_doc_matches_played _ _ p)

theorem decayStep_wins (cutoff : ℤ) (p : PlayerData) :
    (decayStep cutoff p).wins = p.wins := by
  unfold decayStep
  split <;> rfl

theorem decayStep_losses (cutoff : ℤ) (p : PlayerData) :
    (decayStep cutoff p).losses = p.losses := by
  unfold decayStep
  split <;> rfl

theorem decayStep_matches_played (cutoff : ℤ) (p : PlayerData) :
    (decayStep cutoff p).matches_played = p.matches_played := by
  unfold decayStep
  split <;> rfl

theorem inv_decay (cutoff : ℤ) {s : State} (h : Inv s) :
    Inv (daily_elo_decay cutoff s).1 := by
  constructor
  · intro uid p hp
    rw [lookupP_daily_elo_decay] at hp
    cases hq : lookupP s uid with
    | none => rw [hq] at hp; cases hp
    | some q =>
        rw [hq] at hp
        have hpq : decayStep cutoff q = p := by simpa using hp
        have base := h.1 uid q hq
        have hwc : winCount (daily_elo_decay cutoff s).1 uid = winCount s uid := rfl
        have hlc : lossCount (daily_elo_decay cutoff s).1 uid = lossCount s uid := rfl
        rw [hwc, hlc, ← hpq, decayStep_wins, decayStep_losses, decayStep_matches_played]
        exact base
  · intro e he
    have he' : e ∈ s.match_history := he
    have h2 := h.2 e he'
    constructor
    · rw [lookupP_daily_elo_decay]
      simpa using h2.1
    · rw [lookupP_daily_elo_decay]
      simpa using h2.2

theorem inv_single_update (s : State) (h : Inv s) (k : String)
    (f : PlayerData → PlayerData)
    (hwins : ∀ p, (f p).wins = p.wins)
    (hlosses : ∀ p, (f p).losses = p.losses)
    (hmp : ∀ p, (f p).matches_played = p.matches_played) :
    Inv (batchUpdateP s k f) := by
  constructor
  · intro uid p hp
    rw [lookupP_batchUpdateP] at hp
    have hwc : winCount (batchUpdateP s k f) uid = winCount s uid := rfl
    have hlc : lossCount (batchUpdateP s k f) uid = lossCount s uid := rfl
    rw [hwc, hlc]
    by_cases hk : uid = k
    · rw [if_pos hk] at hp
      cases hq : lookupP s uid with
      | none => rw [hq] at hp; cases hp
      | some q =>
          rw [hq] at hp
          have hpq : f q = p := by simpa using hp
          have base := h.1 uid q hq
          rw [← hpq, hwins, hlosses, hmp]
          exact base
    · rw [if_neg hk] at hp
      exact h.1 uid p hp
  · intro e he
    have h2 := h.2 e he
    rw [isSome_lookupP_batchUpdateP, isSome_lookupP_batchUpdateP]
    exact h2

theorem eloUpd_wins (r : Region) (f : ℤ → ℤ) (p : PlayerData) :
    (eloUpd r f p).wins = p.wins := by
  cases r <;> rfl

theorem eloUpd_losses (r : Region) (f : ℤ → ℤ) (p : PlayerData) :
    (eloUpd r f p).losses = p.losses := by
  cases r <;> rfl

theorem eloUpd_matches_played (r : Region) (f : ℤ → ℤ) (p : PlayerData) :
    (eloUpd r f p).matches_played = p.matches_played := by
  cases r <;> rfl

theorem inv_set_elo (uid : String) (region : Region) (v : ℤ) {s : State}
    (h : Inv s) : Inv (set_elo uid region v s) := by
  unfold set_elo
  by_cases hreg : (lookupP s uid).isSome
  · rw [if_pos hreg]
    exact inv_single_update s h uid _ (fun p => eloUpd_wins _ _ p)
      (fun p => eloUpd_losses _ _ p) (fun p => eloUpd_matches_played _ _ p)
  · rw [if_neg hreg]
    exact h

theorem inv_edit (uid : String) (ru cl co : Option String) {s : State}
    (h : Inv s) : Inv (edit_profile uid ru cl co s) := by
  unfold edit_profile
  by_cases hreg : (lookupP s uid).isSome
  · rw [if_pos hreg]
    refine inv_single_update s h uid _ ?_ ?_ ?_ <;>
      intro p <;> cases ru <;> cases cl <;> cases co <;> rfl
  · rw [if_neg hreg]
    exact h

theorem inv_init : Inv initState := by
  constructor
  · intro uid p hp
    simp [lookupP, initState] at hp
  · intro e he
    simp [initState] at he

theorem inv_reachable {s : State} (h : Reachable s) : Inv s := by
  induction h with
  | init => exact inv_init
  | register_step uid dn ru cl co t _ ih => exact inv_register uid dn ru cl co t ih
  | apply_step w l region tid t _ ih => exact inv_apply w l region tid t ih
  | revert_step mid _ ih => exact inv_revert mid ih
  | decay_step cutoff _ ih => exact inv_decay cutoff ih
  | set_elo_step uid region v _ ih => exact inv_set_elo uid region v ih
  | edit_step uid ru cl co _ ih => exact inv_edit uid ru cl co ih

/-- In every reachable store, every committed match id is below the
fresh-id supply, so the id auto-generated for the next record is new. -/
theorem match_ids_lt_nextId {s : State} (h : Reachable s) :
    ∀ e ∈ s.match_history, e.1 < s.nextId := by
  induction h with
  | init =>
      intro e he
      simp [initState] at he
  | register_step uid dn ru cl co t hs ih =>
      rename_i s'
      intro e he
      have hmh : (register uid dn ru cl co t s').match_history = s'.match_history := by
        unfold register
        split <;> rfl
      have hni : (register uid dn ru cl co t s').nextId = s'.nextId := by
        unfold register
        split <;> rfl
      rw [hmh] at he
      rw [hni]
      exact ih e he
  | apply_step w l region tid t hs ih =>
      rename_i s'
      intro e he
      cases hw : lookupP s' w with
      | none =>
          have hst : (process_match_elo w l region tid t s').2 = s' := by
            unfold process_match_elo
            rw [hw]
          rw [hst] at he ⊢
          exact ih e he
      | some wd =>
          cases hl : lookupP s' l with
          | none =>
              have hst : (process_match_elo w l region tid t s').2 = s' := by
                unfold process_match_elo
                rw [hw, hl]
              rw [hst] at he ⊢
              exact ih e he
          | some ld =>
              have hst : (process_match_elo w l region tid t s').2 =
                  applyFinalState w l region tid t s' wd ld := by
                unfold process_match_elo
                rw [hw, hl]
              rw [hst] at he ⊢
              have hmh : (applyFinalState w l region tid t s' wd ld).match_history =
                  s'.match_history ++ [(s'.nextId, newMatchRecord w l region tid t wd ld)] :=
                rfl
              have hni : (applyFinalState w l region tid t s' wd ld).nextId =
                  s'.nextId + 1 := rfl
              rw [hmh] at he
              rw [hni]
              rcases List.mem_append.1 he with hold | hnew
              · exact Nat.lt_succ_of_lt (ih e hold)
              · have : e = (s'.nextId, newMatchRecord w l region tid t wd ld) := by
                  simpa using hnew
                rw [this]
                exact Nat.lt_succ_self _
  | revert_step mid hs ih =>
      rename_i s'
      intro e he
      cases hm : lookupM s' mid with
      | none =>
          have hst : (revert_match mid s').2 = s' := by
            unfold revert_match
            rw [hm]
          rw [hst] at he ⊢
          exact ih e he
      | some m =>
          have hmh : (revert_match mid s').2.match_history =
              s'.match_history.filter fun e2 => e2.1 != mid := by
            unfold revert_match
            rw [hm]
            rfl
          have hni : (revert_match mid s').2.nextId = s'.nextId := by
            unfold revert_match
            rw [hm]
            rfl
          rw [hmh] at he
          rw [hni]
          exact ih e (List.mem_of_mem_filter he)
  | decay_step cutoff hs ih =>
      rename_i s'
      intro e he
      exact ih e he
  | set_elo_step uid region v hs ih =>
      rename_i s'
      intro e he
      have hmh : (set_elo uid region v s').match_history = s'.match_history := by
        unfold set_elo
        split <;> rfl
      have hni : (set_elo uid region v s').nextId = s'.nextId := by
        unfold set_elo
        split <;> rfl
      rw [hmh] at he
      rw [hni]
      exact ih e he
  | edit_step uid ru cl co hs ih =>
      rename_i s'
      intro e he
      have hmh : (edit_profile uid ru cl co s').match_history = s'.match_history := by
        unfold edit_profile
        split <;> rfl
      have hni : (edit_profile uid ru cl co s').nextId = s'.nextId := by
        unfold edit_profile
        split <;> rfl
      rw [hmh] at he
      rw [hni]
      exact ih e he

/-! ### Decay lemmas -/

theorem decayStep_elo_of_sel (cutoff : ℤ) (p : PlayerData)
    (hsel : p.last_played_date < cutoff) :
    (decayStep cutoff p).elo_na =
      (if STARTING_ELO < p.elo_na then max STARTING_ELO (p.elo_na - DECAY_AMOUNT) else p.elo_na) ∧
    (decayStep cutoff p).elo_eu =
      (if STARTING_ELO < p.elo_eu then max STARTING_ELO (p.elo_eu - DECAY_AMOUNT) else p.elo_eu) ∧
    (decayStep cutoff p).elo_as =
      (if STARTING_ELO < p.elo_as then max STARTING_ELO (p.elo_as - DECAY_AMOUNT) else p.elo_as) := by
  unfold decayStep decayWrites decayPlayer
  by_cases h1 : STARTING_ELO < p.elo_na <;>
    by_cases h2 : STARTING_ELO < p.elo_eu <;>
      by_cases h3 : STARTING_ELO < p.elo_as <;>
        simp [hsel, h1, h2, h3]

theorem decayStep_of_no_write (cutoff : ℤ) (p : PlayerData)
    (hw : decayWrites p = false) : decayStep cutoff p = p := by
  unfold decayStep
  simp [hw]

theorem decayStep_idem (cutoff : ℤ) (p : PlayerData)
    (hb : p.last_played_date < cutoff →
      p.elo_na ≤ STARTING_ELO + DECAY_AMOUNT ∧
      p.elo_eu ≤ STARTING_ELO + DECAY_AMOUNT ∧
      p.elo_as ≤ STARTING_ELO + DECAY_AMOUNT) :
    decayStep cutoff (decayStep cutoff p) = decayStep cutoff p := by
  by_cases hsel : p.last_played_date < cutoff
  · by_cases hw : decayWrites p
    · have hq : decayStep cutoff p = decayPlayer p := by
        unfold decayStep
        simp [hsel, hw]
      have h1 : p.elo_na ≤ 1225 := by
        simpa [STARTING_ELO, DECAY_AMOUNT] using (hb hsel).1
      have h2 : p.elo_eu ≤ 1225 := by
        simpa [STARTING_ELO, DECAY_AMOUNT] using (hb hsel).2.1
      have h3 : p.elo_as ≤ 1225 := by
        simpa [STARTING_ELO, DECAY_AMOUNT] using (hb hsel).2.2
      have hwq : decayWrites (decayPlayer p) = false := by
        unfold decayWrites decayPlayer STARTING_ELO DECAY_AMOUNT
        simp only [Bool.or_eq_false_iff, decide_eq_false_iff_not, not_lt]
        refine ⟨⟨?_, ?_⟩, ?_⟩ <;> split_ifs <;> simp_all
      rw [hq, decayStep_of_no_write cutoff _ hwq]
    · have hq : decayStep cutoff p = p :=
        decayStep_of_no_write cutoff p (by simpa using hw)
      simp [hq]
  · have hq : decayStep cutoff p = p := by
      unfold decayStep
      simp [hsel]
    simp [hq]

/-! ### The claims -/

/-- C4: the claim states that every match record created by
`process_match_elo` contains, besides winner id, loser id, region, delta,
timestamp and tournament id, the pre-match regional ratings of both
players.  The dictionary written at line 164 has no such keys, and the
`elo_graph` reader (line 330) that expects `winner_elo_before` /
`loser_elo_before` therefore fails (a `KeyError`) on every record the
ledger produces: the code contradicts its own consumer, so the claim
documents intent and the record writer is the bug. -/
theorem C4_no_ratings_before_snapshot (m : MatchRecord) (pid : String) :
    dictGet (matchRecordFields m) "winner_elo_before" = none ∧
    dictGet (matchRecordFields m) "loser_elo_before" = none ∧
    elo_graph_initial_elo pid m = none := by
  refine ⟨?_, ?_, ?_⟩
  · simp [dictGet, matchRecordFields, List.find?]
  · simp [dictGet, matchRecordFields, List.find?]
  · unfold elo_graph_initial_elo
    split <;> simp [dictGet, matchRecordFields, List.find?]

/-- C6: every player selected by the decay pass (last-played date older
than the cutoff) has each regional rating above the baseline replaced by
`max(baseline, rating - decayAmount)`, a rating at or below baseline is
left unchanged, and a selected player whose three ratings are all at or
below baseline is not written at all (`decayWrites` is `false` and the
stored document is unchanged). -/
theorem C6_decay_formula (cutoff : ℤ) (s : State) (uid : String) (p : PlayerData)
    (hp : lookupP s uid = some p) (hsel : p.last_played_date < cutoff) :
    ∃ q, lookupP (daily_elo_decay cutoff s).1 uid = some q ∧
      q.elo_na = (if STARTING_ELO < p.elo_na then max STARTING_ELO (p.elo_na - DECAY_AMOUNT) else p.elo_na) ∧
      q.elo_eu = (if STARTING_ELO < p.elo_eu then max STARTING_ELO (p.elo_eu - DECAY_AMOUNT) else p.elo_eu) ∧
      q.elo_as = (if STARTING_ELO < p.elo_as then max STARTING_ELO (p.elo_as - DECAY_AMOUNT) else p.elo_as) ∧
      ((p.elo_na ≤ STARTING_ELO ∧ p.elo_eu ≤ STARTING_ELO ∧ p.elo_as ≤ STARTING_ELO) →
        q = p ∧ decayWrites p = false) := by
  refine ⟨decayStep cutoff p, ?_, (decayStep_elo_of_sel cutoff p hsel).1,
    (decayStep_elo_of_sel cutoff p hsel).2.1,
    (decayStep_elo_of_sel cutoff p hsel).2.2, ?_⟩
  · rw [lookupP_daily_elo_decay, hp]
    rfl
  · intro hb
    have hw : decayWrites p = false := by
      unfold decayWrites
      simp only [Bool.or_eq_false_iff, decide_eq_false_iff_not, not_lt]
      exact ⟨⟨hb.1, hb.2.1⟩, hb.2.2⟩
    exact ⟨decayStep_of_no_write cutoff p hw, hw⟩

/-- C6 witness: the spec's scenario player (NA rating 1250, inactive)
at cutoff 100. -/
theorem C6_decay_formula_witness :
    ∃ q, lookupP (daily_elo_decay 100 decayState).1 "1" = some q ∧
      q.elo_na = (if STARTING_ELO < pDecay.elo_na then max STARTING_ELO (pDecay.elo_na - DECAY_AMOUNT) else pDecay.elo_na) ∧
      q.elo_eu = (if STARTING_ELO < pDecay.elo_eu then max STARTING_ELO (pDecay.elo_eu - DECAY_AMOUNT) else pDecay.elo_eu) ∧
      q.elo_as = (if STARTING_ELO < pDecay.elo_as then max STARTING_ELO (pDecay.elo_as - DECAY_AMOUNT) else pDecay.elo_as) ∧
      ((pDecay.elo_na ≤ STARTING_ELO ∧ pDecay.elo_eu ≤ STARTING_ELO ∧ pDecay.elo_as ≤ STARTING_ELO) →
        q = pDecay ∧ decayWrites pDecay = false) :=
  C6_decay_formula 100 decayState "1" pDecay rfl (by decide)

/-- C7 counterexample: decay is not idempotent.  The spec's own scenario
player (NA 1250, inactive) goes to 1225 after one run and to 1200 after
two runs with no intervening matches, so running the pass twice does not
produce the same end state as running it once. -/
theorem C7_counterexample :
    (lookupP (daily_elo_decay 100 decayState).1 "1").map PlayerData.elo_na = some 1225 ∧
    (lookupP (daily_elo_decay 100 (daily_elo_decay 100 decayState).1).1 "1").map PlayerData.elo_na = some 1200 ∧
    (daily_elo_decay 100 (daily_elo_decay 100 decayState).1).1 ≠ (daily_elo_decay 100 decayState).1 := by
  refine ⟨by decide, by decide, by decide⟩

/-- C7 as amended: a second decay run with no intervening matches is a
no-op exactly when the first run ends with every selected player at or
below baseline; this holds whenever every selected player's regional
ratings start at most `baseline + decayAmount` (in particular on an
already-at-baseline population).  In general each further run subtracts
up to another `decayAmount` per region until baseline is reached. -/
theorem C7_decay_twice_eq_once (cutoff : ℤ) (s : State)
    (h : ∀ e ∈ s.players, e.2.last_played_date < cutoff →
      e.2.elo_na ≤ STARTING_ELO + DECAY_AMOUNT ∧
      e.2.elo_eu ≤ STARTING_ELO + DECAY_AMOUNT ∧
      e.2.elo_as ≤ STARTING_ELO + DECAY_AMOUNT) :
    (daily_elo_decay cutoff (daily_elo_decay cutoff s).1).1 =
      (daily_elo_decay cutoff s).1 := by
  have hmm : ∀ (X : State), (daily_elo_decay cutoff X).1 =
      { X with players := X.players.map fun e => (e.1, decayStep cutoff e.2) } :=
    fun X => rfl
  simp only [hmm]
  rw [List.map_map]
  congr 1
  apply List.map_congr_left
  intro e he
  simp [Function.comp, decayStep_idem cutoff e.2 (h e he)]

/-- C7 witness: a selected player 25 above baseline in NA; two runs end
where one run ends. -/
theorem C7_decay_twice_eq_once_witness :
    (daily_elo_decay 100 (daily_elo_decay 100 decayState2).1).1 =
      (daily_elo_decay 100 decayState2).1 :=
  C7_decay_twice_eq_once 100 decayState2 (by decide)

/-- Unknown match ids make `revert_match` fail without touching the
store (line 407). -/
theorem revert_match_of_none {mid : ℕ} {s : State}
    (h : lookupM s mid = none) :
    revert_match mid s = (some "Error: Match ID not found.", s) := by
  unfold revert_match
  rw [h]

/-- C9: once `revert_match` has succeeded on a match id, the record is
deleted, so a second call with the same id fails with the
match-not-found error and returns the store unchanged — the stored delta
and the counter decrements are never applied twice. -/
theorem C9_second_revert_fails (mid : ℕ) (s : State)
    (h : (revert_match mid s).1 = none) :
    revert_match mid (revert_match mid s).2 =
      (some "Error: Match ID not found.", (revert_match mid s).2) := by
  cases hm : lookupM s mid with
  | none =>
      exfalso
      unfold revert_match at h
      rw [hm] at h
      simp at h
  | some m =>
      have hmh : (revert_match mid s).2.match_history =
          s.match_history.filter fun e => e.1 != mid := by
        unfold revert_match
        rw [hm]
        rfl
      have hnone : lookupM (revert_match mid s).2 mid = none := by
        unfold lookupM
        rw [hmh, find?_key_filter_self]
        rfl
      exact revert_match_of_none hnone

/-- C9 witness: revert the committed fixture match, then revert again. -/
theorem C9_second_revert_fails_witness :
    revert_match 0 (revert_match 0 revState).2 =
      (some "Error: Match ID not found.", (revert_match 0 revState).2) :=
  C9_second_revert_fails 0 revState rfl

/-! ### Shape lemmas for `process_match_elo`'s final state -/

theorem update_winner_doc_cls (r : Region) (d ws wb t : ℤ) (aT : Option String)
    (p : PlayerData) : (update_winner_doc r d ws wb t aT p).current_loss_streak = 0 := by
  cases r <;> cases aT <;> rfl

theorem lookupP_applyFinalState (w l : String) (region : Region) (tid : Option String)
    (t : ℤ) (s : State) (wd ld : PlayerData) (uid : String) :
    lookupP (applyFinalState w l region tid t s wd ld) uid =
      (if uid = l then
        (if uid = w then
          (lookupP s uid).map (update_winner_doc region (calculate_elo_change wd ld)
            (wd.current_win_streak + 1)
            (max (wd.current_win_streak + 1) wd.best_win_streak) t (tourneyToAdd tid wd))
        else lookupP s uid).map
          (update_loser_doc region (calculate_elo_change wd ld) t (tourneyToAdd tid ld))
      else if uid = w then
        (lookupP s uid).map (update_winner_doc region (calculate_elo_change wd ld)
          (wd.current_win_streak + 1)
          (max (wd.current_win_streak + 1) wd.best_win_streak) t (tourneyToAdd tid wd))
      else lookupP s uid) := by
  have e1 : lookupP (applyFinalState w l region tid t s wd ld) uid =
      lookupP (batchUpdateP (batchUpdateP s w
        (update_winner_doc region (calculate_elo_change wd ld)
          (wd.current_win_streak + 1)
          (max (wd.current_win_streak + 1) wd.best_win_streak) t (tourneyToAdd tid wd))) l
        (update_loser_doc region (calculate_elo_change wd ld) t (tourneyToAdd tid ld))) uid :=
    rfl
  rw [e1, lookupP_batchUpdateP, lookupP_batchUpdateP]

theorem lookupM_applyFinalState_new (w l : String) (region : Region) (tid : Option String)
    (t : ℤ) (s : State) (wd ld : PlayerData)
    (hfresh : ∀ e ∈ s.match_history, e.1 ≠ s.nextId) :
    lookupM (applyFinalState w l region tid t s wd ld) s.nextId =
      some (newMatchRecord w l region tid t wd ld) := by
  unfold lookupM
  rw [show (applyFinalState w l region tid t s wd ld).match_history =
        s.match_history ++ [(s.nextId, newMatchRecord w l region tid t wd ld)] from rfl]
  rw [find?_key_append_fresh _ _ _ hfresh]
  rfl

/-- C3 counterexample: `process_match_elo` performs no self-match check.
Called with equal winner and loser ids on a registered player, it
succeeds — it returns a match id with no error and commits a match
record — instead of failing with `SelfMatchError` and leaving the store
unchanged. -/
theorem C3_counterexample :
    (process_match_elo "1" "1" Region.NA none 1 selfState).1 = (some 0, none) ∧
    (lookupM (process_match_elo "1" "1" Region.NA none 1 selfState).2 0).isSome = true := by
  exact ⟨rfl, rfl⟩

/-- C3 as amended: `process_match_elo` has no winner-equals-loser
precondition.  A self-match against a registered player succeeds, applies
the winner update and then the loser update to the same document (so the
regional rating nets to its old value, wins and losses each grow by one
and matchesPlayed by two) and appends a match record. -/
theorem C3_self_match_processed (uid : String) (region : Region) (tid : Option String)
    (t : ℤ) (s : State) (p : PlayerData) (hp : lookupP s uid = some p) :
    (process_match_elo uid uid region tid t s).1 = (some s.nextId, none) ∧
    ∃ q, lookupP (process_match_elo uid uid region tid t s).2 uid = some q ∧
      q.wins = p.wins + 1 ∧ q.losses = p.losses + 1 ∧
      q.matches_played = p.matches_played + 2 ∧
      (∀ r, eloGet q r = eloGet p r) ∧
      q.current_win_streak = 0 ∧ q.current_loss_streak = 1 := by
  have hres : process_match_elo uid uid region tid t s =
      ((some s.nextId, none), applyFinalState uid uid region tid t s p p) := by
    unfold process_match_elo
    rw [hp]
  rw [hres]
  refine ⟨rfl, ?_⟩
  rw [show ((some s.nextId, none), applyFinalState uid uid region tid t s p p).2
        = applyFinalState uid uid region tid t s p p from rfl,
      lookupP_applyFinalState, if_pos rfl, if_pos rfl, hp]
  refine ⟨_, rfl, ?_, ?_, ?_, ?_, ?_, ?_⟩
  · rw [update_loser_doc_wins, update_winner_doc_wins]
  · rw [update_loser_doc_losses, update_winner_doc_losses]
  · rw [update_loser_doc_matches_played, update_winner_doc_matches_played]
    omega
  · intro r
    rw [update_loser_doc_eloGet, update_winner_doc_eloGet]
    by_cases hr : r = region
    · rw [if_pos hr, if_pos hr]
      omega
    · rw [if_neg hr, if_neg hr]
  · rw [update_loser_doc_cws]
  · rw [update_loser_doc_cls, update_winner_doc_cls]
    omega

/-- C3 witness: the self-match succeeds on the fixture store. -/
theorem C3_self_match_processed_witness :
    (process_match_elo "1" "1" Region.NA none 1 selfState).1 =
      (some selfState.nextId, none) :=
  (C3_self_match_processed "1" Region.NA none 1 selfState
    (newPlayerData "1" "alice" "robloxA" "clanA" "au" 0) rfl).1

/-- C5: the spec's fresh-players scenario.  Two newly registered players
(all regional ratings 1200, no matches) meet in NA: the provisional
K-factor 64 is selected, the expectation at equal ratings is one half,
the delta is `round(64 * 0.5) = 32`, the winner's NA rating becomes 1232
and the loser's 1168, the winner gains one win, the loser one loss, both
matchesPlayed become 1, and the stored match record carries delta 32. -/
theorem C5_fresh_players_scenario :
    k_factor_used pA pB = 64 ∧
    expected_win 1200 1200 = 1 / 2 ∧
    calculate_elo_change pA pB = 32 ∧
    (lookupP (process_match_elo "1" "2" Region.NA none 1 testState).2 "1").map
      (fun p => (p.elo_na, p.wins, p.matches_played)) = some (1232, 1, 1) ∧
    (lookupP (process_match_elo "1" "2" Region.NA none 1 testState).2 "2").map
      (fun p => (p.elo_na, p.losses, p.matches_played)) = some (1168, 1, 1) ∧
    (lookupM (process_match_elo "1" "2" Region.NA none 1 testState).2 0).map
      MatchRecord.elo_change = some 32 := by
  have hk : k_factor_used pA pB = 64 := by decide
  have hoA : get_overall_elo pA = 1200 :=
    get_overall_elo_newPlayer "1" "alice" "robloxA" "clanA" "au" 0
  have hoB : get_overall_elo pB = 1200 :=
    get_overall_elo_newPlayer "2" "bob" "robloxB" "clanB" "us" 0
  have hexp := expected_win_self 1200
  have hd : calculate_elo_change pA pB = 32 := by
    unfold calculate_elo_change
    rw [hk, hoA, hoB, hexp,
      show ((64 : ℤ) : ℝ) * (1 - 1 / 2) = ((32 : ℤ) : ℝ) by norm_num]
    exact pyRound_intCast 32
  have h1 : lookupP testState "1" = some pA := rfl
  have h2 : lookupP testState "2" = some pB := rfl
  have hres : process_match_elo "1" "2" Region.NA none 1 testState =
      ((some 0, none), applyFinalState "1" "2" Region.NA none 1 testState pA pB) := by
    unfold process_match_elo
    rw [h1, h2]
    rfl
  refine ⟨hk, hexp, hd, ?_, ?_, ?_⟩
  · rw [hres, show ((some 0, none), applyFinalState "1" "2" Region.NA none 1 testState pA pB).2
          = applyFinalState "1" "2" Region.NA none 1 testState pA pB from rfl,
        lookupP_applyFinalState, if_neg (by decide), if_pos rfl, h1, hd]
    decide
  · rw [hres, show ((some 0, none), applyFinalState "1" "2" Region.NA none 1 testState pA pB).2
          = applyFinalState "1" "2" Region.NA none 1 testState pA pB from rfl,
        lookupP_applyFinalState, if_pos rfl, if_neg (by decide), h2, hd]
    decide
  · rw [hres, show ((some 0, none), applyFinalState "1" "2" Region.NA none 1 testState pA pB).2
          = applyFinalState "1" "2" Region.NA none 1 testState pA pB from rfl,
        show (0 : ℕ) = testState.nextId from rfl,
        lookupM_applyFinalState_new "1" "2" Region.NA none 1 testState pA pB (by decide)]
    have helo : (newMatchRecord "1" "2" Region.NA none 1 pA pB).elo_change = 32 := hd
    simp [helo]

/-- Changing only the `match_history` collection leaves player lookups
untouched. -/
theorem lookupP_set_mh (X : State) (M : List (ℕ × MatchRecord)) (uid : String) :
    lookupP { X with match_history := M } uid = lookupP X uid := rfl

/-- C1 counterexample: the two player updates are committed by the batch
of line 155, but the match record is written by a separate `set` at line
164, after the tier-role coroutine steps.  The intermediate commit point
— both players updated, no match record — is therefore a reachable
outcome of `process_match_elo`, contradicting the claim that all three
effects are one atomic unit. -/
theorem C1_counterexample :
    ((process_match_outcomes "1" "2" Region.NA none 1 testState)[1]?).map
        (fun st => ((lookupP st "1").map PlayerData.wins,
                    (lookupP st "2").map PlayerData.losses,
                    st.match_history)) =
      some (some 1, some 1, []) := by
  rfl

/-- C1 as amended: within `process_match_elo`'s success path the winner
and loser updates form one atomic batch commit (no outcome applies one
without the other, and the batch leaves the match-record collection
untouched), but the match-record append is a separate second commit:
the reachable commit points are exactly the untouched store, the store
with both players updated and no record, and the final store which adds
only the record on top of the batch state. -/
theorem C1_batch_then_separate_record (w l : String) (region : Region)
    (tid : Option String) (t : ℤ) (s : State) (pw pl : PlayerData)
    (hw : lookupP s w = some pw) (hl : lookupP s l = some pl) :
    process_match_outcomes w l region tid t s =
      [s, applyBatchState w l region tid t s pw pl,
        applyFinalState w l region tid t s pw pl] ∧
    (applyFinalState w l region tid t s pw pl).players =
      (applyBatchState w l region tid t s pw pl).players ∧
    (applyBatchState w l region tid t s pw pl).match_history = s.match_history ∧
    (applyFinalState w l region tid t s pw pl).match_history =
      s.match_history ++ [(s.nextId, newMatchRecord w l region tid t pw pl)] ∧
    (process_match_elo w l region tid t s).2 =
      applyFinalState w l region tid t s pw pl := by
  refine ⟨?_, rfl, rfl, rfl, ?_⟩
  · unfold process_match_outcomes
    rw [hw, hl]
  · unfold process_match_elo
    rw [hw, hl]

/-- C1 witness: the fixture store exposes all three commit points. -/
theorem C1_batch_then_separate_record_witness :
    process_match_outcomes "1" "2" Region.NA none 1 testState =
      [testState, applyBatchState "1" "2" Region.NA none 1 testState pA pB,
        applyFinalState "1" "2" Region.NA none 1 testState pA pB] :=
  (C1_batch_then_separate_record "1" "2" Region.NA none 1 testState pA pB rfl rfl).1

/-- C2: for distinct registered players, applying a match and then
reverting the returned match id restores both players' regional ratings
(all three regions, in particular the match region), wins, losses and
matchesPlayed to their exact pre-match values.  The freshness hypothesis
says the auto-generated id of the new record is not already a key of the
match-history collection; by `match_ids_lt_nextId` it holds in every
reachable store. -/
theorem C2_apply_then_revert_restores (w l : String) (region : Region)
    (tid : Option String) (t : ℤ) (s : State) (pw pl : PlayerData)
    (hne : w ≠ l) (hw : lookupP s w = some pw) (hl : lookupP s l = some pl)
    (hfresh : ∀ e ∈ s.match_history, e.1 ≠ s.nextId) :
    (process_match_elo w l region tid t s).1.1 = some s.nextId ∧
    (∃ pw', lookupP (revert_match s.nextId (process_match_elo w l region tid t s).2).2 w
        = some pw' ∧
      (∀ r, eloGet pw' r = eloGet pw r) ∧
      pw'.wins = pw.wins ∧ pw'.losses = pw.losses ∧
      pw'.matches_played = pw.matches_played) ∧
    (∃ pl', lookupP (revert_match s.nextId (process_match_elo w l region tid t s).2).2 l
        = some pl' ∧
      (∀ r, eloGet pl' r = eloGet pl r) ∧
      pl'.wins = pl.wins ∧ pl'.losses = pl.losses ∧
      pl'.matches_played = pl.matches_played) := by
  have hres : process_match_elo w l region tid t s =
      ((some s.nextId, none), applyFinalState w l region tid t s pw pl) := by
    unfold process_match_elo
    rw [hw, hl]
  rw [hres]
  rw [show (((some s.nextId, none),
        applyFinalState w l region tid t s pw pl) :
        (Option ℕ × Option String) × State).2
      = applyFinalState w l region tid t s pw pl from rfl]
  have hm := lookupM_applyFinalState_new w l region tid t s pw pl hfresh
  have hrev2 : (revert_match s.nextId (applyFinalState w l region tid t s pw pl)).2 =
      { batchUpdateP (batchUpdateP (applyFinalState w l region tid t s pw pl) w
          (revert_winner_doc region (calculate_elo_change pw pl))) l
          (revert_loser_doc region (calculate_elo_change pw pl)) with
        match_history := (applyFinalState w l region tid t s pw pl).match_history.filter
          fun e => e.1 != s.nextId } := by
    unfold revert_match
    rw [hm]
    rfl
  have hs1w : lookupP (applyFinalState w l region tid t s pw pl) w =
      some (update_winner_doc region (calculate_elo_change pw pl)
        (pw.current_win_streak + 1)
        (max (pw.current_win_streak + 1) pw.best_win_streak) t (tourneyToAdd tid pw) pw) := by
    rw [lookupP_applyFinalState, if_neg hne, if_pos rfl, hw]
    rfl
  have hs1l : lookupP (applyFinalState w l region tid t s pw pl) l =
      some (update_loser_doc region (calculate_elo_change pw pl) t (tourneyToAdd tid pl) pl) := by
    rw [lookupP_applyFinalState, if_pos rfl, if_neg (fun hc => hne hc.symm), hl]
    rfl
  have hw2 : lookupP (revert_match s.nextId (applyFinalState w l region tid t s pw pl)).2 w
      = some (revert_winner_doc region (calculate_elo_change pw pl)
          (update_winner_doc region (calculate_elo_change pw pl)
            (pw.current_win_streak + 1)
            (max (pw.current_win_streak + 1) pw.best_win_streak) t (tourneyToAdd tid pw) pw)) := by
    rw [hrev2, lookupP_set_mh, lookupP_batchUpdateP,
      if_neg hne, lookupP_batchUpdateP, if_pos rfl, hs1w]
    rfl
  have hl2 : lookupP (revert_match s.nextId (applyFinalState w l region tid t s pw pl)).2 l
      = some (revert_loser_doc region (calculate_elo_change pw pl)
          (update_loser_doc region (calculate_elo_change pw pl) t (tourneyToAdd tid pl) pl)) := by
    rw [hrev2, lookupP_set_mh, lookupP_batchUpdateP,
      if_pos rfl, lookupP_batchUpdateP, if_neg (fun hc => hne hc.symm), hs1l]
    rfl
  refine ⟨rfl, ?_, ?_⟩
  · refine ⟨_, hw2, ?_, ?_, ?_, ?_⟩
    · intro r
      rw [revert_winner_doc_eloGet, update_winner_doc_eloGet]
      by_cases hr : r = region
      · rw [if_pos hr, if_pos hr]
        omega
      · rw [if_neg hr, if_neg hr]
    · rw [revert_winner_doc_wins, update_winner_doc_wins]
      omega
    · rw [revert_winner_doc_losses, update_winner_doc_losses]
    · rw [revert_winner_doc_matches_played, update_winner_doc_matches_played]
      omega
  · refine ⟨_, hl2, ?_, ?_, ?_, ?_⟩
    · intro r
      rw [revert_loser_doc_eloGet, update_loser_doc_eloGet]
      by_cases hr : r = region
      · rw [if_pos hr, if_pos hr]
        omega
      · rw [if_neg hr, if_neg hr]
    · rw [revert_loser_doc_wins, update_loser_doc_wins]
    · rw [revert_loser_doc_losses, update_loser_doc_losses]
      omega
    · rw [revert_loser_doc_matches_played, update_loser_doc_matches_played]
      omega

/-- C2 witness: the fresh-players fixture; the call reports the new
record's id. -/
theorem C2_apply_then_revert_restores_witness :
    (process_match_elo "1" "2" Region.NA none 1 testState).1.1 =
      some testState.nextId :=
  (C2_apply_then_revert_restores "1" "2" Region.NA none 1 testState pA pB
    (by decide) rfl rfl (by decide)).1

/-- C8 counterexample: non-negativity of ratings fails.  `set_elo`
performs no validation of the new value (line 430), so an admin override
reaches a store in which a registered player's NA rating is negative. -/
theorem C8_counterexample :
    Reachable (set_elo "1" Region.NA (-5) selfState) ∧
    (lookupP (set_elo "1" Region.NA (-5) selfState) "1").map PlayerData.elo_na
      = some (-5) ∧
    (-5 : ℤ) < 0 := by
  refine ⟨?_, by decide, by decide⟩
  exact Reachable.set_elo_step "1" Region.NA (-5)
    (Reachable.register_step "1" "alice" "robloxA" "clanA" "au" 0 Reachable.init)

/-- C8 as amended: ratings can become negative (see the counterexample;
besides `set_elo`, nothing clamps a loser's rating at zero), but the
aggregate counters are safe: in every state reachable by any sequence of
the public operations, every player's wins, losses and matchesPlayed are
non-negative. -/
theorem C8_counters_nonneg (s : State) (hs : Reachable s) (uid : String)
    (p : PlayerData) (hp : lookupP s uid = some p) :
    0 ≤ p.wins ∧ 0 ≤ p.losses ∧ 0 ≤ p.matches_played := by
  obtain ⟨b1, b2, b3⟩ := (inv_reachable hs).1 uid p hp
  omega

/-- C8 witness: the freshly registered fixture player. -/
theorem C8_counters_nonneg_witness :
    0 ≤ (newPlayerData "1" "alice" "robloxA" "clanA" "au" 0).wins ∧
    0 ≤ (newPlayerData "1" "alice" "robloxA" "clanA" "au" 0).losses ∧
    0 ≤ (newPlayerData "1" "alice" "robloxA" "clanA" "au" 0).matches_played :=
  C8_counters_nonneg selfState
    (Reachable.register_step "1" "alice" "robloxA" "clanA" "au" 0 Reachable.init)
    "1" (newPlayerData "1" "alice" "robloxA" "clanA" "au" 0) rfl

/-- C10: reverting an existing match modifies only the stored region's
rating and the aggregate wins/losses/matchesPlayed counters of the two
players named in the record, and deletes the record.  Every other player
document is untouched, every other match record is untouched, and for
every player every frame field — identity strings, the per-region
win/loss counters, streak state, best-streak watermark, last-played
timestamp, tournament participation — and every other region's rating
keep their values. -/
theorem C10_revert_frame (mid : ℕ) (s : State) (m : MatchRecord)
    (hm : lookupM s mid = some m) :
    (revert_match mid s).1 = none ∧
    (∀ uid, uid ≠ m.winner_id → uid ≠ m.loser_id →
      lookupP (revert_match mid s).2 uid = lookupP s uid) ∧
    (∀ uid p, lookupP s uid = some p → ∃ q,
      lookupP (revert_match mid s).2 uid = some q ∧
      untouchedByRevert p q ∧
      (∀ r, r ≠ m.region → eloGet q r = eloGet p r)) ∧
    lookupM (revert_match mid s).2 mid = none ∧
    (∀ mid', mid' ≠ mid → lookupM (revert_match mid s).2 mid' = lookupM s mid') ∧
    (m.winner_id ≠ m.loser_id →
      (∀ pw, lookupP s m.winner_id = some pw → ∃ pw',
        lookupP (revert_match mid s).2 m.winner_id = some pw' ∧
        eloGet pw' m.region = eloGet pw m.region - m.elo_change ∧
        pw'.wins = pw.wins - 1 ∧ pw'.losses = pw.losses ∧
        pw'.matches_played = pw.matches_played - 1) ∧
      (∀ pl, lookupP s m.loser_id = some pl → ∃ pl',
        lookupP (revert_match mid s).2 m.loser_id = some pl' ∧
        eloGet pl' m.region = eloGet pl m.region + m.elo_change ∧
        pl'.wins = pl.wins ∧ pl'.losses = pl.losses - 1 ∧
        pl'.matches_played = pl.matches_played - 1)) := by
  have hrev : (revert_match mid s).2 =
      { batchUpdateP (batchUpdateP s m.winner_id
          (revert_winner_doc m.region m.elo_change)) m.loser_id
          (revert_loser_doc m.region m.elo_change) with
        match_history := s.match_history.filter fun e => e.1 != mid } := by
    unfold revert_match
    rw [hm]
    rfl
  have herr : (revert_match mid s).1 = none := by
    unfold revert_match
    rw [hm]
  have hlp : ∀ uid, lookupP (revert_match mid s).2 uid =
      (if uid = m.loser_id then
        (if uid = m.winner_id then
          (lookupP s uid).map (revert_winner_doc m.region m.elo_change)
        else lookupP s uid).map (revert_loser_doc m.region m.elo_change)
      else if uid = m.winner_id then
        (lookupP s uid).map (revert_winner_doc m.region m.elo_change)
      else lookupP s uid) := by
    intro uid
    rw [hrev, lookupP_set_mh, lookupP_batchUpdateP, lookupP_batchUpdateP]
  refine ⟨herr, ?_, ?_, ?_, ?_, ?_⟩
  · intro uid hw hl
    rw [hlp, if_neg hl, if_neg hw]
  · intro uid p hp
    rw [hlp]
    by_cases hl : uid = m.loser_id <;> by_cases hw : uid = m.winner_id
    · rw [if_pos hl, if_pos hw, hp]
      refine ⟨_, rfl, ?_, ?_⟩
      · exact untouchedByRevert_trans (untouchedByRevert_winner m.region m.elo_change p)
          (untouchedByRevert_loser m.region m.elo_change _)
      · intro r hr
        rw [revert_loser_doc_eloGet, if_neg hr, revert_winner_doc_eloGet, if_neg hr]
    · rw [if_pos hl, if_neg hw, hp]
      refine ⟨_, rfl, untouchedByRevert_loser m.region m.elo_change p, ?_⟩
      intro r hr
      rw [revert_loser_doc_eloGet, if_neg hr]
    · rw [if_neg hl, if_pos hw, hp]
      refine ⟨_, rfl, untouchedByRevert_winner m.region m.elo_change p, ?_⟩
      intro r hr
      rw [revert_winner_doc_eloGet, if_neg hr]
    · rw [if_neg hl, if_neg hw]
      exact ⟨p, hp, untouchedByRevert_refl p, fun r hr => rfl⟩
  · rw [hrev]
    unfold lookupM
    rw [show ({ batchUpdateP (batchUpdateP s m.winner_id
          (revert_winner_doc m.region m.elo_change)) m.loser_id
          (revert_loser_doc m.region m.elo_change) with
        match_history := s.match_history.filter fun e => e.1 != mid } : State).match_history
        = s.match_history.filter fun e => e.1 != mid from rfl]
    rw [find?_key_filter_self]
    rfl
  · intro mid' hne
    rw [hrev]
    unfold lookupM
    rw [show ({ batchUpdateP (batchUpdateP s m.winner_id
          (revert_winner_doc m.region m.elo_change)) m.loser_id
          (revert_loser_doc m.region m.elo_change) with
        match_history := s.match_history.filter fun e => e.1 != mid } : State).match_history
        = s.match_history.filter fun e => e.1 != mid from rfl]
    rw [find?_key_filter_other _ _ _ hne]
  · intro hne
    constructor
    · intro pw hpw
      rw [hlp, if_neg hne, if_pos rfl, hpw]
      refine ⟨_, rfl, ?_, ?_, ?_, ?_⟩
      · rw [revert_winner_doc_eloGet, if_pos rfl]
        omega
      · rw [revert_winner_doc_wins]
      · rw [revert_winner_doc_losses]
      · rw [revert_winner_doc_matches_played]
    · intro pl hpl
      rw [hlp, if_pos rfl, if_neg (fun hc => hne hc.symm), hpl]
      refine ⟨_, rfl, ?_, ?_, ?_, ?_⟩
      · rw [revert_loser_doc_eloGet, if_pos rfl]
      · rw [revert_loser_doc_wins]
      · rw [revert_loser_doc_losses]
      · rw [revert_loser_doc_matches_played]

/-- C10 witness: reverting the fixture match succeeds. -/
theorem C10_revert_frame_witness : (revert_match 0 revState).1 = none :=
  (C10_revert_frame 0 revState rec0 rfl).1

end EloBot
